import Mathlib

/-!
Verification of the houclip snippet repository and catalog subsystem.

The definitions below are a shallow embedding of the Python sources in
src/scripts/python/houclip (snippets.py, config.py, broadcast.py).
Python strings are modelled as lists of characters, the filesystem as a
record of partial maps (per-category decoded index files, per-category
content files keyed by identifier, the host temporary directory, and the
system clipboard), and fallible Python code as Except values carrying the
exception class that the source raises.
-/

namespace Houclip

/-- Python strings, modelled as lists of characters. -/
abbrev Str := List Char

/-- Coercion from Lean string literals to the character-list model. -/
def str (s : String) : Str := s.data

/-- Python str.strip: drop leading and trailing whitespace. -/
def pyStrip (s : Str) : Str :=
  ((s.dropWhile Char.isWhitespace).reverse.dropWhile Char.isWhitespace).reverse

/-- Python str.rstrip: drop trailing whitespace. -/
def pyRstrip (s : Str) : Str :=
  (s.reverse.dropWhile Char.isWhitespace).reverse

/-- Python str.split(sep) for a one-character separator. -/
def pySplit (sep : Char) : Str → List Str
  | [] => [[]]
  | c :: cs =>
    let r := pySplit sep cs
    if c = sep then [] :: r
    else
      match r with
      | [] => [[c]]
      | h :: t => (c :: h) :: t

/-- Python ','.join(tags), used by Snippet.__str__ and Snippet.add_to_list. -/
def joinTags (tags : List Str) : Str :=
  List.intercalate [','] tags

/-- Ordinal (code-point) comparison of Python strings, as used by sorted(). -/
def strLeB : Str → Str → Bool
  | [], _ => true
  | _ :: _, [] => false
  | c :: cs, d :: ds => if c = d then strLeB cs ds else decide (c < d)

/-- Insertion step of the sorting performed by Python sorted(). -/
def insertStrSorted (x : Str) : List Str → List Str
  | [] => [x]
  | y :: ys => if strLeB x y then x :: y :: ys else y :: insertStrSorted x ys

/-- Stable insertion sort over strings, modelling Python sorted(). -/
def sortStrs : List Str → List Str
  | [] => []
  | x :: xs => insertStrSorted x (sortStrs xs)

/-- Snippet.tags setter: split the comma-separated input, strip whitespace
from each piece, and sort the result. -/
def tagsOf (s : Str) : List Str :=
  sortStrs ((pySplit ',' s).map pyStrip)

/-- Python format specifier f-string left-justify: the field is padded on the
right with spaces up to the given width (no truncation when longer). -/
def strFormat (s : Str) (width : Nat) : Str :=
  s ++ List.replicate (width - s.length) ' '

/-- One decoded index row: the ordered fields
[description, tags (comma-joined), category, prefix, identifier] written by
Snippet.add_to_list and read back by the workflows. -/
structure Row where
  description : Str
  tags : Str
  category : Str
  pfx : Str
  uuid : Str
deriving DecidableEq, Repr

/-- Filtering loop of Snippet.delete: every decoded row whose identifier
field differs from the snippet's uuid is written to the temporary file, in
file order; rows carrying the uuid are dropped. -/
def rewriteExcluding : List Row → Str → List Row
  | [], _ => []
  | r :: rs, u =>
    if r.uuid = u then rewriteExcluding rs u
    else r :: rewriteExcluding rs u

/-- Display-length limits supplied by the configuration provider (the MENU
section of houclip.conf; defaults max_desc_len 128, max_tags_len 32). -/
structure Config where
  maxDescLen : Nat
  maxTagsLen : Nat
deriving DecidableEq, Repr

/-- Exception classes raised by the modelled Python code. -/
inductive PyError where
  | fileNotFound
  | valueError
  | attributeError
  | keyError
  | calledProcessError
  | indexError
deriving DecidableEq, Repr

/-- Messages from messages.py that the modelled workflows broadcast,
paired in the logs with the severity they are broadcast at. -/
inductive Msg where
  | csvMissing
  | csvEmpty
  | catEmpty
  | descReq
  | snippetAdded
  | snippetDeleted
deriving DecidableEq, Repr

/-- Category-to-prefix registry PREFIXES from config.py; none models the
Python None entries (Director, Manager, VopNet). -/
def PREFIXES : List (Str × Option Str) :=
  [(str "Chop", some (str "CHOP")),
   (str "ChopNet", some (str "CHOPNET")),
   (str "Cop2", some (str "COP2")),
   (str "CopNet", some (str "IMG")),
   (str "Director", none),
   (str "Dop", some (str "DOP")),
   (str "Driver", some (str "ROP")),
   (str "Lop", some (str "LOP")),
   (str "Manager", none),
   (str "Object", some (str "OBJ")),
   (str "Shop", some (str "SHOP")),
   (str "Sop", some (str "SOP")),
   (str "Top", some (str "TOP")),
   (str "TopNet", some (str "TOPNET")),
   (str "Vop", some (str "VOP")),
   (str "VopNet", none)]

/-- CATEGORIES from config.py: the keys of PREFIXES, in order. -/
def CATEGORIES : List Str := PREFIXES.map (fun p => p.1)

/-- LANGUAGES from config.py. -/
def LANGUAGES : List Str := [str "HScript", str "Python", str "VEX"]

/-- Python PREFIXES.values(): the registry values, None entries included. -/
def prefixValues : List (Option Str) := PREFIXES.map (fun p => p.2)

/-- Registry lookup PREFIXES[category]; a KeyError models a category outside
the closed structural set (the spec's InvalidCategory). -/
def prefixFor (c : Str) : Except PyError (Option Str) :=
  match PREFIXES.lookup c with
  | none => Except.error PyError.keyError
  | some v => Except.ok v

/-- Snippet.prefix setter: rejects a value that is neither None nor one of
PREFIXES.values(); stores the empty string for None, the value otherwise. -/
def setPfx (p : Option Str) : Except PyError Str :=
  if p ∉ prefixValues ∧ p ≠ none then Except.error PyError.valueError
  else
    match p with
    | none => Except.ok []
    | some v => Except.ok v

/-- In-memory snippet object: the attributes assigned by Snippet.__init__
after each setter has validated and normalised its input. -/
structure Snip where
  description : Str
  tags : List Str
  category : Str
  pfx : Str
  uuid : Str
deriving DecidableEq, Repr

/-- Construction of an OpSnippet from keyword arguments in row order,
running the validating setters in the order Snippet.__init__ assigns them:
description (ValueError when empty), tags (parsed, never fails), category
(ValueError when empty or outside CATEGORIES), prefix (ValueError when the
string is not one of PREFIXES.values()). -/
def mkOpSnip (r : Row) : Except PyError Snip :=
  if r.description = [] then Except.error PyError.valueError
  else if r.category = [] ∨ r.category ∉ CATEGORIES then Except.error PyError.valueError
  else if some r.pfx ∉ prefixValues then Except.error PyError.valueError
  else Except.ok (Snip.mk r.description (tagsOf r.tags) r.category r.pfx r.uuid)

/-- Construction of a CodeSnippet: CodeSnippet.__init__ forces the prefix
keyword to None before calling Snippet.__init__, so the stored prefix is
always the empty string; category must be in LANGUAGES. -/
def mkCodeSnip (r : Row) : Except PyError Snip :=
  if r.description = [] then Except.error PyError.valueError
  else if r.category = [] ∨ r.category ∉ LANGUAGES then Except.error PyError.valueError
  else Except.ok (Snip.mk r.description (tagsOf r.tags) r.category [] r.uuid)

/-- Row written by Snippet.add_to_list for a snippet object:
[description, comma-joined tags, category, prefix, uuid]. -/
def rowOf (s : Snip) : Row :=
  Row.mk s.description (joinTags s.tags) s.category s.pfx s.uuid

/-- Snippet.get_by_description: linear scan of the instance list, first
match wins, None when no description matches. -/
def getByDescription : List Snip → Str → Option Snip
  | [], _ => none
  | s :: ss, d => if s.description = d then some s else getByDescription ss d

/-- Byte sequence of a text payload written with encoding utf-8; the exact
encoding is irrelevant to the claims, only that text is written and read
verbatim, so a code point per byte-entry is used. -/
def strBytes (s : Str) : List Nat := s.map Char.toNat

/-- Observable machine state: decoded per-category index files (none when
{repo}/{category}.csv does not exist), per-category content files keyed by
identifier, files of the host temporary directory keyed by file name, and
the system clipboard. -/
structure RepoState where
  index : Str → Option (List Row)
  content : Str → Str → Option (List Nat)
  temp : Str → Option (List Nat)
  clipboard : Option (List Nat)

/-- Replacement of one category's index file contents. -/
def setIndex (st : RepoState) (cat : Str) (rows : List Row) : RepoState :=
  RepoState.mk (fun c => if c = cat then some rows else st.index c)
    st.content st.temp st.clipboard

/-- Creation or overwrite of the content file {repo}/{cat}/{uuid}. -/
def setContent (st : RepoState) (cat uuid : Str) (b : List Nat) : RepoState :=
  RepoState.mk st.index
    (fun c u => if c = cat ∧ u = uuid then some b else st.content c u)
    st.temp st.clipboard

/-- Removal of the content file {repo}/{cat}/{uuid} (Path.unlink). -/
def delContent (st : RepoState) (cat uuid : Str) : RepoState :=
  RepoState.mk st.index
    (fun c u => if c = cat ∧ u = uuid then none else st.content c u)
    st.temp st.clipboard

/-- Creation or overwrite of a file in the host temporary directory. -/
def setTemp (st : RepoState) (name : Str) (b : List Nat) : RepoState :=
  RepoState.mk st.index st.content
    (fun n => if n = name then some b else st.temp n) st.clipboard

/-- Host temp-file name f-string from store_in_repo and get_from_repo:
the snippet's prefix followed by the literal suffix. -/
def tempName (p : Str) : Str := p ++ str "_copy.cpio"

/-- Snippet.add_to_list: append one encoded row to the category's index
file; opening in append mode creates a missing file. -/
def addToList (st : RepoState) (s : Snip) : RepoState :=
  match st.index s.category with
  | none => setIndex st s.category [rowOf s]
  | some rows => setIndex st s.category (rows ++ [rowOf s])

/-- OpSnippet.store_in_repo: read the host temp file named by the snippet's
prefix (FileNotFoundError when absent, after the SOURCE_MISSING broadcast),
then write its bytes gzip-compressed to {repo}/{category}/{uuid}. The gzip
compressor itself is external; it enters as the function parameter gz. -/
def opStore (gz : List Nat → List Nat) (st : RepoState) (s : Snip) :
    Except PyError RepoState :=
  match st.temp (tempName s.pfx) with
  | none => Except.error PyError.fileNotFound
  | some src => Except.ok (setContent st s.category s.uuid (gz src))

/-- OpSnippet.get_from_repo: read {repo}/{category}/{uuid}
(FileNotFoundError when absent), decompress, and write the result to the
host temp file named by the snippet's prefix. The gzip decompressor enters
as the function parameter ungz. -/
def opGet (ungz : List Nat → List Nat) (st : RepoState) (s : Snip) :
    Except PyError RepoState :=
  match st.content s.category s.uuid with
  | none => Except.error PyError.fileNotFound
  | some b => Except.ok (setTemp st (tempName s.pfx) (ungz b))

/-- CodeSnippet.store_in_repo: write the clipboard text verbatim to
{repo}/{category}/{uuid}. -/
def codeStore (st : RepoState) (s : Snip) (code : Str) : RepoState :=
  setContent st s.category s.uuid (strBytes code)

/-- CodeSnippet.get_from_repo: read {repo}/{category}/{uuid} verbatim
(FileNotFoundError when absent) and place it on the system clipboard. -/
def codeGet (st : RepoState) (s : Snip) : Except PyError RepoState :=
  match st.content s.category s.uuid with
  | none => Except.error PyError.fileNotFound
  | some b =>
    Except.ok (RepoState.mk st.index st.content st.temp (some b))

/-- Snippet.__str__: the description truncated to max_desc_len and
left-justified in a field of width max_desc_len + 2, the separator, and the
comma-joined tags (the source applies no truncation to the tags). -/
def snipStr (cfg : Config) (s : Snip) : Str :=
  strFormat (s.description.take cfg.maxDescLen) (cfg.maxDescLen + 2)
    ++ ['|'] ++ joinTags s.tags

/-- Display line as the specification words it (for comparison with
snipStr): description truncated to the configured maximum description
length and left-padded, the separator, then the comma-joined tags truncated
to the configured maximum tags length. -/
def snipStrSpec (cfg : Config) (s : Snip) : Str :=
  strFormat (s.description.take cfg.maxDescLen) (cfg.maxDescLen + 2)
    ++ ['|'] ++ (joinTags s.tags).take cfg.maxTagsLen

/-- Mapping a chosen display line back to a description in get_snippet and
del_snippet: selected_snippet.partition(chr(124))[0].rstrip(). -/
def recoverDesc (line : Str) : Str :=
  pyRstrip (line.takeWhile (fun c => decide (c ≠ '|')))

/-- Tail of get_snippet and del_snippet: map the chosen line back to a
catalog object with Snippet.get_by_description; calling a method on the
None result raises AttributeError. -/
def fetchFromLine (l : List Snip) (line : Str) : Except PyError Snip :=
  match getByDescription l (recoverDesc line) with
  | none => Except.error PyError.attributeError
  | some s => Except.ok s

/-- Row-decoding loop of get_snippet: each row becomes an OpSnippet when
its own category field is in CATEGORIES and a CodeSnippet otherwise; a
constructor ValueError propagates. -/
def loadSnips : List Row → Except PyError (List Snip)
  | [] => Except.ok []
  | r :: rs =>
    match (if r.category ∈ CATEGORIES then mkOpSnip r else mkCodeSnip r) with
    | Except.error e => Except.error e
    | Except.ok s =>
      match loadSnips rs with
      | Except.error e => Except.error e
      | Except.ok ss => Except.ok (s :: ss)

/-- Row-decoding loop of del_snippet: the variant is chosen by the
user-selected category, not by the row's own category field. -/
def loadRowsDel (category : Str) : List Row → Except PyError (List Snip)
  | [] => Except.ok []
  | r :: rs =>
    match (if category ∈ CATEGORIES then mkOpSnip r else mkCodeSnip r) with
    | Except.error e => Except.error e
    | Except.ok s =>
      match loadRowsDel category rs with
      | Except.error e => Except.error e
      | Except.ok ss => Except.ok (s :: ss)

/-- Outcome of Snippet.delete: the machine state and instance list after
the call, the broadcasts it made, and the exception it raised, if any.
Side effects performed before a raise are kept, as in the source. -/
structure DelResult where
  state : RepoState
  instances : List Snip
  log : List (Msg × Nat)
  err : Option PyError

/-- Snippet.delete: os.stat on the index file (FileNotFoundError when the
file is absent), a CSV_EMPTY warning when it is empty, the filtered rows
written to a temporary file and copied over the index, snippet_file.unlink
(FileNotFoundError when the content file is absent, with the index already
rewritten), and removal of the object from the instance list. -/
def snippetDelete (st : RepoState) (instances : List Snip) (s : Snip) :
    DelResult :=
  match st.index s.category with
  | none => DelResult.mk st instances [] (some PyError.fileNotFound)
  | some rows =>
    let warn := if rows = [] then [(Msg.csvEmpty, 4)] else []
    let st1 := setIndex st s.category (rewriteExcluding rows s.uuid)
    match st1.content s.category s.uuid with
    | none => DelResult.mk st1 instances warn (some PyError.fileNotFound)
    | some _ =>
      DelResult.mk (delContent st1 s.category s.uuid)
        (instances.erase s) warn none

/-- Outcome of a whole workflow invocation. -/
structure WfResult where
  state : RepoState
  log : List (Msg × Nat)
  err : Option PyError

/-- del_snippet: prompt for a category (strip applied; empty or invalid
input returns silently), report CSV_MISSING and stop when the index file
does not exist, decode the rows, report CAT_EMPTY and stop when none,
let the user pick a display line (empty input returns silently), map it
back through get_by_description (AttributeError on None), then
Snippet.delete and the SNIPPET_DELETED broadcast. The menu collaborator
enters as catChoice and pick. -/
def delSnippet (cfg : Config) (catChoice : Str) (pick : List Str → Str)
    (st : RepoState) : WfResult :=
  let category := pyStrip catChoice
  if category = [] then WfResult.mk st [] none
  else if category ∉ CATEGORIES ++ LANGUAGES then WfResult.mk st [] none
  else
    match st.index category with
    | none => WfResult.mk st [(Msg.csvMissing, 4)] none
    | some rows =>
      match loadRowsDel category rows with
      | Except.error e => WfResult.mk st [] (some e)
      | Except.ok instances =>
        if instances = [] then WfResult.mk st [(Msg.catEmpty, 0)] none
        else
          let chosen := pick (instances.map (snipStr cfg))
          if chosen = [] then WfResult.mk st [] none
          else
            match getByDescription instances (recoverDesc chosen) with
            | none => WfResult.mk st [] (some PyError.attributeError)
            | some s =>
              let d := snippetDelete st instances s
              match d.err with
              | some e => WfResult.mk d.state d.log (some e)
              | none =>
                WfResult.mk d.state (d.log ++ [(Msg.snippetDeleted, 0)]) none

/-- Python f-string rendering of a PREFIXES value, as in add_op_snippet:
a string renders to itself and None renders to the four-letter word None. -/
def pyStrOfOpt : Option Str → Str
  | some v => v
  | none => str "None"

/-- add_op_snippet after the selection has been validated and its category
determined: registry lookup (KeyError outside the closed set), the host
writing the selection payload to its temp file via copyItemsToClipboard,
the description prompt (DESC_REQ broadcast and silent return when empty),
the tags prompt, construction of the OpSnippet through the validating
setters, store_in_repo, add_to_list, and the success broadcast. -/
def addOpSnippet (gz : List Nat → List Nat) (category descIn tagsIn u : Str)
    (p : List Nat) (st : RepoState) :
    Except PyError (RepoState × List (Msg × Nat)) :=
  match PREFIXES.lookup category with
  | none => Except.error PyError.keyError
  | some v =>
    let pfxStr := pyStrOfOpt v
    let st1 := setTemp st (tempName pfxStr) p
    if descIn = [] then Except.ok (st1, [(Msg.descReq, 2)])
    else
      match mkOpSnip (Row.mk descIn tagsIn category pfxStr u) with
      | Except.error e => Except.error e
      | Except.ok s =>
        match opStore gz st1 s with
        | Except.error e => Except.error e
        | Except.ok st2 =>
          Except.ok (addToList st2 s, [(Msg.snippetAdded, 0)])

/-- Destination-file contents observable while shutil.copyfile streams src
into it: opening the destination for writing truncates it, and each copied
chunk extends it by a prefix of src, up to the full copy. -/
def copyfileDstStates (src : List Row) : List (List Row) :=
  (List.range (src.length + 1)).map (fun k => src.take k)

/-- Index-file contents observable across the index rewrite of
Snippet.delete: the original rows while the filtered rows go to the
temporary file, then the copyfile states of the filtered rows. -/
def deleteIndexStates (rows : List Row) (u : Str) : List (List Row) :=
  [rows] ++ copyfileDstStates (rewriteExcluding rows u)

/-- Availability of the external notification channels: whether the
notify-send subprocess exits with status 0, and whether the hou module is
importable. -/
structure BroadcastEnv where
  notifySendOk : Bool
  houAvailable : Bool
deriving DecidableEq, Repr

/-- Broadcast.stdout: prints and returns; severity_names is indexed, so a
severity above 4 raises IndexError. -/
def stdoutChannel (_msg : Str) (severity : Nat) : Except PyError Unit :=
  if severity > 4 then Except.error PyError.indexError else Except.ok ()

/-- Broadcast.status_msg: returns silently when hou is unavailable,
otherwise indexes severity_types and sets the status message. -/
def statusMsgChannel (env : BroadcastEnv) (_msg : Str) (severity : Nat) :
    Except PyError Unit :=
  if env.houAvailable then
    if severity > 4 then Except.error PyError.indexError else Except.ok ()
  else Except.ok ()

/-- Broadcast.notify_send: params[severity] (KeyError above 4), then
subprocess.run of notify-send with check set, which raises
CalledProcessError whenever the subprocess exits with nonzero status. -/
def notifySendChannel (env : BroadcastEnv) (_msg : Str) (severity : Nat) :
    Except PyError Unit :=
  if severity > 4 then Except.error PyError.keyError
  else if env.notifySendOk then Except.ok ()
  else Except.error PyError.calledProcessError

/-- Broadcast.all: stdout, then status_msg, then notify_send, each
exception propagating to the caller. -/
def broadcastAll (env : BroadcastEnv) (msg : Str) (severity : Nat) :
    Except PyError Unit :=
  match stdoutChannel msg severity with
  | Except.error e => Except.error e
  | Except.ok _ =>
    match statusMsgChannel env msg severity with
    | Except.error e => Except.error e
    | Except.ok _ => notifySendChannel env msg severity

/-- Tail of get_snippet: map the chosen description back to a catalog
object (AttributeError when get_by_description returns None) and run
get_from_repo. The virtual dispatch goes by the object's class, which the
decoding loop chose by the category-in-CATEGORIES test, so it is recovered
here by the same test. -/
def fetchByDescription (ungz : List Nat → List Nat) (st : RepoState)
    (inst : List Snip) (d : Str) : Except PyError RepoState :=
  match getByDescription inst d with
  | none => Except.error PyError.attributeError
  | some t =>
    if t.category ∈ CATEGORIES then opGet ungz st t else codeGet st t

/-- Repository state with no index files, no content files, no host temp
files, and an empty clipboard. -/
def emptyRepo : RepoState :=
  RepoState.mk (fun _ => none) (fun _ _ => none) (fun _ => none) none

/-- Concrete two-row index used to exhibit the interrupted-copy state of
the delete rewrite. -/
def c1rows : List Row :=
  [Row.mk (str "d1") (str "t") (str "Sop") (str "SOP") (str "a"),
   Row.mk (str "d2") (str "t") (str "Sop") (str "SOP") (str "b")]

/-- Concrete index holding two rows that carry the same identifier. -/
def c2rows : List Row :=
  [Row.mk (str "d1") (str "t") (str "Sop") (str "SOP") (str "u"),
   Row.mk (str "d2") (str "t") (str "Sop") (str "SOP") (str "u")]

/-- Two catalog snippets sharing one description. -/
def c4s1 : Snip := Snip.mk (str "dup") [str "t"] (str "Python") [] (str "u1")

/-- Second snippet with the description of c4s1 but another identifier. -/
def c4s2 : Snip := Snip.mk (str "dup") [str "t"] (str "Python") [] (str "u2")

/-- Repository state holding the index and content files of c4s1, c4s2. -/
def c4st : RepoState :=
  RepoState.mk
    (fun c => if c = str "Python" then some [rowOf c4s1, rowOf c4s2] else none)
    (fun c u =>
      if c = str "Python" ∧ (u = str "u1" ∨ u = str "u2") then some [65]
      else none)
    (fun _ => none) none

/-- Catalog snippet with a unique description, for the delete witness. -/
def w4s : Snip := Snip.mk (str "only") [str "t"] (str "Python") [] (str "u1")

/-- Repository state holding the index row and content file of w4s. -/
def w4st : RepoState :=
  RepoState.mk
    (fun c => if c = str "Python" then some [rowOf w4s] else none)
    (fun c u => if c = str "Python" ∧ u = str "u1" then some [65] else none)
    (fun _ => none) none

/-- Structural snippet for the round-trip witness. -/
def w3s : Snip := Snip.mk (str "d") [str "t"] (str "Sop") (str "SOP") (str "u")

/-- State with an empty Sop index and the host temp payload for w3s. -/
def w3st : RepoState :=
  RepoState.mk (fun c => if c = str "Sop" then some [] else none)
    (fun _ _ => none)
    (fun n => if n = tempName (str "SOP") then some [7, 8] else none) none

/-- Textual snippet for the round-trip witness. -/
def w3sT : Snip := Snip.mk (str "dT") [str "t"] (str "Python") [] (str "uT")

/-- State with an empty Python index, for the textual round-trip witness. -/
def w3stT : RepoState :=
  RepoState.mk (fun c => if c = str "Python" then some [] else none)
    (fun _ _ => none) (fun _ => none) none

/-- State with an empty Sop index, for the Scenario A witness. -/
def w6st : RepoState :=
  RepoState.mk (fun c => if c = str "Sop" then some [] else none)
    (fun _ _ => none) (fun _ => none) none

/-- Small display-length configuration for the rendering examples. -/
def c9cfg : Config := Config.mk 4 2

/-- Snippet whose comma-joined tags exceed max_tags_len of c9cfg. -/
def c9snip : Snip :=
  Snip.mk (str "ab") [str "xyz", str "w"] (str "Python") [] (str "u")

/-- Snippet whose description ends in whitespace, violating the line
round-trip preconditions. -/
def c10bad : Snip := Snip.mk (str "ab ") [] (str "Python") [] (str "u")

/-- Snippet satisfying the line round-trip preconditions under c9cfg. -/
def c10good : Snip :=
  Snip.mk (str "ok") [str "t"] (str "Sop") (str "SOP") (str "u")

/-- Decidable equality of Except results, for evaluating the models on
concrete inputs. -/
instance {e a : Type} [DecidableEq e] [DecidableEq a] :
    DecidableEq (Except e a) :=
  fun x y =>
    match x, y with
    | Except.ok v, Except.ok w =>
      if h : v = w then isTrue (by rw [h])
      else isFalse (fun hh => by cases hh; exact h rfl)
    | Except.error v, Except.error w =>
      if h : v = w then isTrue (by rw [h])
      else isFalse (fun hh => by cases hh; exact h rfl)
    | Except.ok _, Except.error _ => isFalse (fun hh => by cases hh)
    | Except.error _, Except.ok _ => isFalse (fun hh => by cases hh)

theorem rewriteExcluding_eq_filter (rows : List Row) (u : Str) :
    rewriteExcluding rows u = rows.filter (fun r => decide (r.uuid ≠ u)) := by
  induction rows with
  | nil => rfl
  | cons r rs ih =>
    by_cases h : r.uuid = u <;> simp [rewriteExcluding, List.filter, h, ih]

theorem rewriteExcluding_sublist (rows : List Row) (u : Str) :
    List.Sublist (rewriteExcluding rows u) rows := by
  rw [rewriteExcluding_eq_filter]
  exact List.filter_sublist rows

theorem mem_rewriteExcluding (rows : List Row) (u : Str) (r : Row) :
    r ∈ rewriteExcluding rows u ↔ r ∈ rows ∧ r.uuid ≠ u := by
  rw [rewriteExcluding_eq_filter]
  simp [List.mem_filter]

theorem rewriteExcluding_length (rows : List Row) (u : Str) :
    (rewriteExcluding rows u).length
      = rows.length - rows.countP (fun r => decide (r.uuid = u)) := by
  induction rows with
  | nil => rfl
  | cons r rs ih =>
    have hle : rs.countP (fun r => decide (r.uuid = u)) ≤ rs.length :=
      List.countP_le_length _
    by_cases h : r.uuid = u <;> simp [rewriteExcluding, List.countP_cons, h, ih] <;> omega

theorem getByDescription_eq_none (l : List Snip) (d : Str)
    (h : ∀ t ∈ l, t.description ≠ d) : getByDescription l d = none := by
  induction l with
  | nil => rfl
  | cons s ss ih =>
    have hs : s.description ≠ d := h s (List.mem_cons_self s ss)
    simp only [getByDescription, if_neg hs]
    exact ih (fun t ht => h t (List.mem_cons_of_mem s ht))

theorem getByDescription_append_of_none (l1 l2 : List Snip) (d : Str)
    (h : ∀ t ∈ l1, t.description ≠ d) :
    getByDescription (l1 ++ l2) d = getByDescription l2 d := by
  induction l1 with
  | nil => rfl
  | cons s ss ih =>
    have hs : s.description ≠ d := h s (List.mem_cons_self s ss)
    simp only [List.cons_append, getByDescription, if_neg hs]
    exact ih (fun t ht => h t (List.mem_cons_of_mem s ht))

theorem getByDescription_of_mem (l : List Snip) (s : Snip) (hs : s ∈ l) :
    ∃ t, getByDescription l s.description = some t
      ∧ t.description = s.description := by
  induction l with
  | nil => cases hs
  | cons a as ih =>
    by_cases ha : a.description = s.description
    · exact ⟨a, by simp [getByDescription, ha], ha⟩
    · have hmem : s ∈ as := by
        rcases List.mem_cons.mp hs with h | h
        · exact absurd (h ▸ rfl) ha
        · exact h
      rcases ih hmem with ⟨t, ht1, ht2⟩
      exact ⟨t, by simp [getByDescription, if_neg ha, ht1], ht2⟩

theorem loadSnips_append (xs ys : List Row) (as bs : List Snip)
    (hx : loadSnips xs = Except.ok as) (hy : loadSnips ys = Except.ok bs) :
    loadSnips (xs ++ ys) = Except.ok (as ++ bs) := by
  induction xs generalizing as with
  | nil =>
    cases hx
    simpa using hy
  | cons r rs ih =>
    simp only [loadSnips] at hx
    cases hmk : (if r.category ∈ CATEGORIES then mkOpSnip r else mkCodeSnip r) with
    | error e => rw [hmk] at hx; cases hx
    | ok s =>
      rw [hmk] at hx
      cases hrec : loadSnips rs with
      | error e => rw [hrec] at hx; cases hx
      | ok ss =>
        rw [hrec] at hx
        cases hx
        show loadSnips (r :: (rs ++ ys)) = Except.ok ((s :: ss) ++ bs)
        simp only [loadSnips, hmk, ih ss hrec, List.cons_append]

theorem mkVariant_description (r : Row) (s : Snip)
    (h : (if r.category ∈ CATEGORIES then mkOpSnip r else mkCodeSnip r)
      = Except.ok s) :
    s.description = r.description := by
  by_cases hc : r.category ∈ CATEGORIES
  · rw [if_pos hc] at h
    simp only [mkOpSnip] at h
    split at h
    · cases h
    · split at h
      · cases h
      · split at h
        · cases h
        · cases h
          rfl
  · rw [if_neg hc] at h
    simp only [mkCodeSnip] at h
    split at h
    · cases h
    · split at h
      · cases h
      · cases h
        rfl

theorem loadSnips_descriptions (rows : List Row) (l : List Snip)
    (h : loadSnips rows = Except.ok l) :
    ∀ t ∈ l, ∃ r ∈ rows, t.description = r.description := by
  induction rows generalizing l with
  | nil =>
    cases h
    intro t ht
    cases ht
  | cons r rs ih =>
    simp only [loadSnips] at h
    cases hmk : (if r.category ∈ CATEGORIES then mkOpSnip r else mkCodeSnip r) with
    | error e => rw [hmk] at h; cases h
    | ok s =>
      rw [hmk] at h
      cases hrec : loadSnips rs with
      | error e => rw [hrec] at h; cases h
      | ok ss =>
        rw [hrec] at h
        cases h
        intro t ht
        rcases List.mem_cons.mp ht with h1 | h1
        · exact ⟨r, List.mem_cons_self r rs,
            by rw [h1, mkVariant_description r s hmk]⟩
        · rcases ih ss hrec t h1 with ⟨r', hr', heq⟩
          exact ⟨r', List.mem_cons_of_mem r hr', heq⟩

theorem mkOpSnip_ok (r : Row) (hd : r.description ≠ [])
    (hc : r.category ∈ CATEGORIES) (hp : some r.pfx ∈ prefixValues) :
    mkOpSnip r
      = Except.ok (Snip.mk r.description (tagsOf r.tags) r.category r.pfx r.uuid) := by
  have hne : ¬(r.category = [] ∨ r.category ∉ CATEGORIES) := by
    rintro (h0 | h1)
    · rw [h0] at hc
      exact absurd hc (by decide)
    · exact h1 hc
  simp only [mkOpSnip, if_neg hd, if_neg hne, if_neg (not_not_intro hp)]

theorem mkCodeSnip_ok (r : Row) (hd : r.description ≠ [])
    (hc : r.category ∈ LANGUAGES) :
    mkCodeSnip r
      = Except.ok (Snip.mk r.description (tagsOf r.tags) r.category [] r.uuid) := by
  have hne : ¬(r.category = [] ∨ r.category ∉ LANGUAGES) := by
    rintro (h0 | h1)
    · rw [h0] at hc
      exact absurd hc (by decide)
    · exact h1 hc
  simp only [mkCodeSnip, if_neg hd, if_neg hne]

theorem languages_not_categories : ∀ c ∈ LANGUAGES, c ∉ CATEGORIES := by
  decide

/-- C1: the index rewrite of the delete workflow is claimed atomic: after
any single interrupted run the index holds either the old rows or the
filtered rows. The source instead copies the temporary file over the index
with shutil.copyfile, which truncates the destination and then streams the
bytes, so the truncated (empty) index is an observable interrupted state
that is neither the old nor the new contents. -/
theorem c1_interrupted_copy_state :
    ∃ s ∈ deleteIndexStates c1rows (str "b"),
      s ≠ c1rows ∧ s ≠ rewriteExcluding c1rows (str "b") := by
  decide

/-- C2 counterexample: on an index holding two rows with the same
identifier, some row carries the identifier yet the rewritten row count is
the old count minus two, not minus one. -/
theorem c2_counterexample :
    (∃ r ∈ c2rows, r.uuid = str "u")
    ∧ (rewriteExcluding c2rows (str "u")).length ≠ c2rows.length - 1 := by
  decide

/-- C2 (amended): the rewrite keeps, in their original relative order and
with their exact field values, precisely the rows whose identifier differs
from the excluded one (it equals the filter of the original rows and is a
sublist of them), and the row count drops by exactly the number of rows
carrying the identifier: unchanged when none does, one less when exactly
one does. -/
theorem c2_rewrite_preserves_others :
    ∀ (rows : List Row) (u : Str),
      rewriteExcluding rows u = rows.filter (fun r => decide (r.uuid ≠ u))
      ∧ List.Sublist (rewriteExcluding rows u) rows
      ∧ (rewriteExcluding rows u).length
          = rows.length - rows.countP (fun r => decide (r.uuid = u)) :=
  fun rows u =>
    ⟨rewriteExcluding_eq_filter rows u, rewriteExcluding_sublist rows u,
      rewriteExcluding_length rows u⟩

/-- C5: the claim says a failing notification channel never raises into the
calling workflow; in the source Broadcast.notify_send runs the notify-send
subprocess with check set, so a nonzero exit raises CalledProcessError out
of Broadcast.all into the caller, with or without the hou channel. -/
theorem c5_notify_failure_raises :
    broadcastAll (BroadcastEnv.mk false false) (str "m") 3
        = Except.error PyError.calledProcessError
    ∧ broadcastAll (BroadcastEnv.mk false true) (str "m") 0
        = Except.error PyError.calledProcessError :=
  ⟨rfl, rfl⟩

/-- C9: the rendered display line of a snippet whose comma-joined tags are
longer than max_tags_len carries the tags in full: Snippet.__str__ never
applies the configured maximum tags length, against the claim and the
method's own docstring. -/
theorem c9_tags_not_truncated :
    snipStr c9cfg c9snip = str "ab    |xyz,w"
    ∧ snipStr c9cfg c9snip ≠ snipStrSpec c9cfg c9snip := by
  decide

theorem setIndex_index_self (st : RepoState) (cat : Str) (rows : List Row) :
    (setIndex st cat rows).index cat = some rows := by
  simp [setIndex]

theorem setContent_content_self (st : RepoState) (cat u : Str)
    (b : List Nat) : (setContent st cat u b).content cat u = some b := by
  simp [setContent]

theorem setTemp_temp_self (st : RepoState) (n : Str) (b : List Nat) :
    (setTemp st n b).temp n = some b := by
  simp [setTemp]

theorem addToList_eq (st : RepoState) (s : Snip) (rows : List Row)
    (h : st.index s.category = some rows) :
    addToList st s = setIndex st s.category (rows ++ [rowOf s]) := by
  unfold addToList
  rw [h]

/-- C7: for every valid structural category the registry lookup returns its
fixed configured value — none for the deliberately unmapped Director,
Manager and VopNet — the prefix setter accepts that value without raising
and stores exactly it, the empty string standing for no prefix; and the
None prefix that CodeSnippet forces for every textual snippet is stored as
the empty string. -/
theorem c7_registry_and_setter (c : Str) (hc : c ∈ CATEGORIES) :
    (∃ v, prefixFor c = Except.ok v ∧ setPfx v = Except.ok (v.getD []))
    ∧ prefixFor (str "Director") = Except.ok none
    ∧ prefixFor (str "Manager") = Except.ok none
    ∧ prefixFor (str "VopNet") = Except.ok none
    ∧ setPfx none = Except.ok [] := by
  refine ⟨?_, rfl, rfl, rfl, rfl⟩
  fin_cases hc <;> exact ⟨_, rfl, by decide⟩

/-- C7 witness at the structural category Sop. -/
theorem c7_registry_witness :
    (∃ v, prefixFor (str "Sop") = Except.ok v
      ∧ setPfx v = Except.ok (v.getD []))
    ∧ prefixFor (str "Director") = Except.ok none
    ∧ prefixFor (str "Manager") = Except.ok none
    ∧ prefixFor (str "VopNet") = Except.ok none
    ∧ setPfx none = Except.ok [] :=
  c7_registry_and_setter (str "Sop") (by decide)

/-- C8: running the delete workflow on a valid category whose index file
does not exist reports CSV_MISSING at severity 4 and returns with the
machine state untouched: no index file created or rewritten, no content
file removed. -/
theorem c8_delete_missing_index (cfg : Config) (catChoice : Str)
    (pick : List Str → Str) (st : RepoState)
    (hne : pyStrip catChoice ≠ [])
    (hmem : pyStrip catChoice ∈ CATEGORIES ++ LANGUAGES)
    (hidx : st.index (pyStrip catChoice) = none) :
    delSnippet cfg catChoice pick st
      = WfResult.mk st [(Msg.csvMissing, 4)] none := by
  unfold delSnippet
  rw [if_neg hne, if_neg (not_not_intro hmem), hidx]

/-- C8 witness: the delete workflow on category Sop over a repository with
no index files. -/
theorem c8_delete_missing_index_witness :
    delSnippet (Config.mk 128 32) (str "Sop") (fun _ => []) emptyRepo
      = WfResult.mk emptyRepo [(Msg.csvMissing, 4)] none :=
  c8_delete_missing_index (Config.mk 128 32) (str "Sop") (fun _ => [])
    emptyRepo (by decide) (by decide) rfl

/-- C4 counterexample: with two catalog snippets sharing a description,
deleting the first succeeds yet get_by_description on that description
still returns the second snippet, not none. -/
theorem c4_counterexample :
    (snippetDelete c4st [c4s1, c4s2] c4s1).err = none
    ∧ getByDescription (snippetDelete c4st [c4s1, c4s2] c4s1).instances
        c4s1.description = some c4s2
    ∧ (some c4s2 : Option Snip) ≠ none := by
  refine ⟨rfl, rfl, ?_⟩
  intro h
  cases h

/-- C4 (amended): after a successful Snippet.delete of s, the rewritten
index holds no row carrying s's identifier, and get_by_description on s's
description returns none provided no other remaining catalog snippet
shares that description (with a shared description it returns the first
remaining one). -/
theorem c4_delete_removes (st : RepoState) (inst : List Snip) (s : Snip)
    (rows : List Row) (b : List Nat)
    (hidx : st.index s.category = some rows)
    (hcontent : st.content s.category s.uuid = some b)
    (huniq : ∀ t ∈ inst.erase s, t.description ≠ s.description) :
    (snippetDelete st inst s).err = none
    ∧ (snippetDelete st inst s).state.index s.category
        = some (rewriteExcluding rows s.uuid)
    ∧ (∀ r ∈ rewriteExcluding rows s.uuid, r.uuid ≠ s.uuid)
    ∧ getByDescription (snippetDelete st inst s).instances s.description
        = none := by
  have hc1 : (setIndex st s.category (rewriteExcluding rows s.uuid)).content
      s.category s.uuid = some b := hcontent
  have hd : snippetDelete st inst s
      = DelResult.mk
          (delContent (setIndex st s.category (rewriteExcluding rows s.uuid))
            s.category s.uuid)
          (inst.erase s) (if rows = [] then [(Msg.csvEmpty, 4)] else [])
          none := by
    unfold snippetDelete
    rw [hidx]
    simp only [hc1]
  rw [hd]
  refine ⟨rfl, ?_, ?_, ?_⟩
  · show (setIndex st s.category (rewriteExcluding rows s.uuid)).index
        s.category = some (rewriteExcluding rows s.uuid)
    exact setIndex_index_self st s.category (rewriteExcluding rows s.uuid)
  · intro r hr
    exact ((mem_rewriteExcluding rows s.uuid r).mp hr).2
  · exact getByDescription_eq_none (inst.erase s) s.description huniq

/-- C4 witness: deleting the only snippet of its description empties both
the lookup and the index of it. -/
theorem c4_delete_removes_witness :
    (snippetDelete w4st [w4s] w4s).err = none
    ∧ (snippetDelete w4st [w4s] w4s).state.index w4s.category
        = some (rewriteExcluding [rowOf w4s] w4s.uuid)
    ∧ (∀ r ∈ rewriteExcluding [rowOf w4s] w4s.uuid, r.uuid ≠ w4s.uuid)
    ∧ getByDescription (snippetDelete w4st [w4s] w4s).instances
        w4s.description = none :=
  c4_delete_removes w4st [w4s] w4s [rowOf w4s] [65] rfl rfl
    (by intro t ht; cases ht)

/-- C6: Scenario A: creating a structural snippet in category Sop (prefix
SOP) with description blur setup and tags util, blur appends exactly one
index row holding the description, the tags whitespace-stripped, sorted
and comma-joined, the category, the prefix SOP and the new identifier, and
creates the content file of that identifier holding the gzip-compressed
payload (the compressor enters as the parameter gz). -/
theorem c6_scenario_a (gz : List Nat → List Nat) (u : Str) (p : List Nat)
    (st : RepoState) (rows : List Row)
    (hidx : st.index (str "Sop") = some rows) :
    ∃ st2,
      addOpSnippet gz (str "Sop") (str "blur setup") (str "util, blur") u p
          st
        = Except.ok (st2, [(Msg.snippetAdded, 0)])
      ∧ st2.index (str "Sop")
          = some (rows ++ [Row.mk (str "blur setup") (str "blur,util")
              (str "Sop") (str "SOP") u])
      ∧ st2.content (str "Sop") u = some (gz p) := by
  have key : addOpSnippet gz (str "Sop") (str "blur setup")
      (str "util, blur") u p st
      = Except.ok (addToList
          (setContent (setTemp st (tempName (str "SOP")) p) (str "Sop") u
            (gz p))
          (Snip.mk (str "blur setup") (tagsOf (str "util, blur"))
            (str "Sop") (str "SOP") u), [(Msg.snippetAdded, 0)]) := rfl
  have hadd := addToList_eq
      (setContent (setTemp st (tempName (str "SOP")) p) (str "Sop") u (gz p))
      (Snip.mk (str "blur setup") (tagsOf (str "util, blur"))
        (str "Sop") (str "SOP") u) rows hidx
  refine ⟨setIndex
      (setContent (setTemp st (tempName (str "SOP")) p) (str "Sop") u (gz p))
      (str "Sop")
      (rows ++ [Row.mk (str "blur setup") (str "blur,util") (str "Sop")
        (str "SOP") u]), ?_, ?_, ?_⟩
  · rw [key, hadd]
    rfl
  · exact setIndex_index_self _ _ _
  · exact setContent_content_self
      (setTemp st (tempName (str "SOP")) p) (str "Sop") u (gz p)

/-- C6 witness over a repository whose Sop index is empty, with a concrete
compressor and payload. -/
theorem c6_scenario_a_witness :
    ∃ st2,
      addOpSnippet (fun b => 0 :: b) (str "Sop") (str "blur setup")
          (str "util, blur") (str "u1") [7] w6st
        = Except.ok (st2, [(Msg.snippetAdded, 0)])
      ∧ st2.index (str "Sop")
          = some ([] ++ [Row.mk (str "blur setup") (str "blur,util")
              (str "Sop") (str "SOP") (str "u1")])
      ∧ st2.content (str "Sop") (str "u1") = some ((fun b => 0 :: b) [7]) :=
  c6_scenario_a (fun b => 0 :: b) (str "u1") [7] w6st [] rfl

theorem takeWhile_append_of_all (p : Char → Bool) (xs ys : Str)
    (h : ∀ x ∈ xs, p x = true) :
    (xs ++ ys).takeWhile p = xs ++ ys.takeWhile p := by
  induction xs with
  | nil => rfl
  | cons c cs ih =>
    have hc : p c = true := h c (List.mem_cons_self c cs)
    have ih2 := ih (fun x hx => h x (List.mem_cons_of_mem c hx))
    simp [List.takeWhile_cons, hc, ih2]

theorem dropWhile_replicate_space (k : Nat) (l : Str) :
    (List.replicate k ' ' ++ l).dropWhile Char.isWhitespace
      = l.dropWhile Char.isWhitespace := by
  induction k with
  | zero => rfl
  | succ n ih =>
    rw [List.replicate_succ, List.cons_append, List.dropWhile_cons,
      if_pos (show Char.isWhitespace ' ' = true from by decide)]
    exact ih

theorem pyRstrip_pad (s : Str) (k : Nat) :
    pyRstrip (s ++ List.replicate k ' ') = pyRstrip s := by
  unfold pyRstrip
  rw [List.reverse_append, List.reverse_replicate, dropWhile_replicate_space]

theorem recoverDesc_snipStr (cfg : Config) (s : Snip)
    (h1 : s.description.length ≤ cfg.maxDescLen)
    (h2 : '|' ∉ s.description)
    (h3 : pyRstrip s.description = s.description) :
    recoverDesc (snipStr cfg s) = s.description := by
  have htake : s.description.take cfg.maxDescLen = s.description :=
    List.take_of_length_le h1
  have hall : ∀ x ∈ s.description
      ++ List.replicate (cfg.maxDescLen + 2 - s.description.length) ' ',
      (fun c => decide (c ≠ '|')) x = true := by
    intro x hx
    rcases List.mem_append.mp hx with h | h
    · exact decide_eq_true (fun he => h2 (he ▸ h))
    · rw [List.eq_of_mem_replicate h]
      decide
  unfold recoverDesc snipStr strFormat
  rw [htake, List.append_assoc, takeWhile_append_of_all _ _ _ hall]
  show pyRstrip ((s.description
      ++ List.replicate (cfg.maxDescLen + 2 - s.description.length) ' ')
      ++ []) = s.description
  rw [List.append_nil, pyRstrip_pad, h3]

/-- C10: for a loaded snippet whose description is at most the configured
maximum description length, holds no separator character and has no
trailing whitespace, splitting its rendered line at the first separator
and stripping trailing whitespace recovers exactly the description, and
the workflows' mapping from the chosen line back to the catalog yields a
snippet with that description; outside these preconditions the recovery
can change the description, the lookup then returns none, and the workflow
dereferences it (AttributeError). -/
theorem c10_line_round_trip (cfg : Config) (l : List Snip) (s : Snip)
    (hs : s ∈ l)
    (h1 : s.description.length ≤ cfg.maxDescLen)
    (h2 : '|' ∉ s.description)
    (h3 : pyRstrip s.description = s.description) :
    recoverDesc (snipStr cfg s) = s.description
    ∧ (∃ t, fetchFromLine l (snipStr cfg s) = Except.ok t
        ∧ t.description = s.description)
    ∧ recoverDesc (snipStr c9cfg c10bad) ≠ c10bad.description
    ∧ fetchFromLine [c10bad] (snipStr c9cfg c10bad)
        = Except.error PyError.attributeError := by
  have hr := recoverDesc_snipStr cfg s h1 h2 h3
  refine ⟨hr, ?_, by decide, by decide⟩
  rcases getByDescription_of_mem l s hs with ⟨t, ht1, ht2⟩
  refine ⟨t, ?_, ht2⟩
  unfold fetchFromLine
  rw [hr, ht1]

/-- C10 witness at a concrete snippet satisfying the preconditions. -/
theorem c10_line_round_trip_witness :
    recoverDesc (snipStr c9cfg c10good) = c10good.description
    ∧ (∃ t, fetchFromLine [c10good] (snipStr c9cfg c10good) = Except.ok t
        ∧ t.description = c10good.description)
    ∧ recoverDesc (snipStr c9cfg c10bad) ≠ c10bad.description
    ∧ fetchFromLine [c10bad] (snipStr c9cfg c10bad)
        = Except.error PyError.attributeError :=
  c10_line_round_trip c9cfg [c10good] c10good (List.mem_singleton.mpr rfl)
    (by decide) (by decide) (by decide)

/-- C3: a snippet created via the Create workflow and then fetched via
List+Fetch using the same description yields back the originally stored
payload: a structural snippet's stored gzip stream decompresses to the
payload placed in the host temp file, and a textual snippet's verbatim
stored text lands on the clipboard unchanged. The gzip codec enters as the
pair gz, ungz with its round-trip contract as a hypothesis; the index may
already hold rows, none carrying the new description (duplicate
descriptions make the first-match lookup ambiguous, spec Scenario D), and
all loading into the catalog goes through the validating constructors. -/
theorem c3_create_fetch_round_trip
    (gz ungz : List Nat → List Nat) (hgz : ∀ b, ungz (gz b) = b)
    (st : RepoState) (rows : List Row) (priors : List Snip) (s : Snip)
    (p : List Nat)
    (hcat : s.category ∈ CATEGORIES) (hdesc : s.description ≠ [])
    (hpfx : some s.pfx ∈ prefixValues)
    (hidx : st.index s.category = some rows)
    (htemp : st.temp (tempName s.pfx) = some p)
    (hpriors : loadSnips rows = Except.ok priors)
    (hfresh : ∀ r ∈ rows, r.description ≠ s.description)
    (stT : RepoState) (rowsT : List Row) (priorsT : List Snip) (sT : Snip)
    (code : Str)
    (hcatT : sT.category ∈ LANGUAGES) (hdescT : sT.description ≠ [])
    (hidxT : stT.index sT.category = some rowsT)
    (hpriorsT : loadSnips rowsT = Except.ok priorsT)
    (hfreshT : ∀ r ∈ rowsT, r.description ≠ sT.description) :
    (∃ st1 inst t st3,
      opStore gz st s = Except.ok st1
      ∧ (addToList st1 s).index s.category = some (rows ++ [rowOf s])
      ∧ loadSnips (rows ++ [rowOf s]) = Except.ok inst
      ∧ getByDescription inst s.description = some t
      ∧ t.uuid = s.uuid
      ∧ fetchByDescription ungz (addToList st1 s) inst s.description
          = Except.ok st3
      ∧ st3.temp (tempName s.pfx) = some p)
    ∧ (∃ instT tT st3T,
      (addToList (codeStore stT sT code) sT).index sT.category
          = some (rowsT ++ [rowOf sT])
      ∧ loadSnips (rowsT ++ [rowOf sT]) = Except.ok instT
      ∧ getByDescription instT sT.description = some tT
      ∧ fetchByDescription ungz (addToList (codeStore stT sT code) sT)
          instT sT.description = Except.ok st3T
      ∧ st3T.clipboard = some (strBytes code)) := by
  constructor
  · have hst1 : opStore gz st s
        = Except.ok (setContent st s.category s.uuid (gz p)) := by
      unfold opStore
      rw [htemp]
    have hmkL : mkOpSnip (rowOf s)
        = Except.ok (Snip.mk s.description (tagsOf (joinTags s.tags))
            s.category s.pfx s.uuid) :=
      mkOpSnip_ok (rowOf s) hdesc hcat hpfx
    have hone : loadSnips [rowOf s]
        = Except.ok [Snip.mk s.description (tagsOf (joinTags s.tags))
            s.category s.pfx s.uuid] := by
      unfold loadSnips
      rw [if_pos (show (rowOf s).category ∈ CATEGORIES from hcat), hmkL]
      rfl
    have hinst := loadSnips_append rows [rowOf s] priors
      [Snip.mk s.description (tagsOf (joinTags s.tags)) s.category s.pfx
        s.uuid] hpriors hone
    have hnone : ∀ q ∈ priors, q.description ≠ s.description := by
      intro q hq
      rcases loadSnips_descriptions rows priors hpriors q hq with ⟨r, hr, he⟩
      rw [he]
      exact hfresh r hr
    have hget : getByDescription
        (priors ++ [Snip.mk s.description (tagsOf (joinTags s.tags))
          s.category s.pfx s.uuid]) s.description
        = some (Snip.mk s.description (tagsOf (joinTags s.tags))
            s.category s.pfx s.uuid) := by
      rw [getByDescription_append_of_none priors _ s.description hnone]
      show (if s.description = s.description
          then some (Snip.mk s.description (tagsOf (joinTags s.tags))
            s.category s.pfx s.uuid)
          else getByDescription [] s.description) = _
      rw [if_pos rfl]
    have hcont : (addToList (setContent st s.category s.uuid (gz p)) s).content
        s.category s.uuid = some (gz p) := by
      rw [addToList_eq (setContent st s.category s.uuid (gz p)) s rows hidx]
      exact setContent_content_self st s.category s.uuid (gz p)
    have hfetch : fetchByDescription ungz
        (addToList (setContent st s.category s.uuid (gz p)) s)
        (priors ++ [Snip.mk s.description (tagsOf (joinTags s.tags))
          s.category s.pfx s.uuid]) s.description
        = Except.ok (setTemp
            (addToList (setContent st s.category s.uuid (gz p)) s)
            (tempName s.pfx) (ungz (gz p))) := by
      unfold fetchByDescription
      simp only [hget]
      rw [if_pos hcat]
      unfold opGet
      simp only [hcont]
    refine ⟨setContent st s.category s.uuid (gz p),
      priors ++ [Snip.mk s.description (tagsOf (joinTags s.tags))
        s.category s.pfx s.uuid],
      Snip.mk s.description (tagsOf (joinTags s.tags)) s.category s.pfx
        s.uuid,
      setTemp (addToList (setContent st s.category s.uuid (gz p)) s)
        (tempName s.pfx) (ungz (gz p)),
      hst1, ?_, hinst, hget, rfl, hfetch, ?_⟩
    · rw [addToList_eq (setContent st s.category s.uuid (gz p)) s rows hidx]
      exact setIndex_index_self _ _ _
    · rw [setTemp_temp_self, hgz p]
  · have hnotcat : sT.category ∉ CATEGORIES :=
      languages_not_categories sT.category hcatT
    have hmkT : mkCodeSnip (rowOf sT)
        = Except.ok (Snip.mk sT.description (tagsOf (joinTags sT.tags))
            sT.category [] sT.uuid) :=
      mkCodeSnip_ok (rowOf sT) hdescT hcatT
    have honeT : loadSnips [rowOf sT]
        = Except.ok [Snip.mk sT.description (tagsOf (joinTags sT.tags))
            sT.category [] sT.uuid] := by
      unfold loadSnips
      rw [if_neg (show ¬ (rowOf sT).category ∈ CATEGORIES from hnotcat),
        hmkT]
      rfl
    have hinstT := loadSnips_append rowsT [rowOf sT] priorsT
      [Snip.mk sT.description (tagsOf (joinTags sT.tags)) sT.category []
        sT.uuid] hpriorsT honeT
    have hnoneT : ∀ q ∈ priorsT, q.description ≠ sT.description := by
      intro q hq
      rcases loadSnips_descriptions rowsT priorsT hpriorsT q hq
        with ⟨r, hr, he⟩
      rw [he]
      exact hfreshT r hr
    have hgetT : getByDescription
        (priorsT ++ [Snip.mk sT.description (tagsOf (joinTags sT.tags))
          sT.category [] sT.uuid]) sT.description
        = some (Snip.mk sT.description (tagsOf (joinTags sT.tags))
            sT.category [] sT.uuid) := by
      rw [getByDescription_append_of_none priorsT _ sT.description hnoneT]
      show (if sT.description = sT.description
          then some (Snip.mk sT.description (tagsOf (joinTags sT.tags))
            sT.category [] sT.uuid)
          else getByDescription [] sT.description) = _
      rw [if_pos rfl]
    have hcontT : (addToList (codeStore stT sT code) sT).content
        sT.category sT.uuid = some (strBytes code) := by
      rw [addToList_eq (codeStore stT sT code) sT rowsT hidxT]
      exact setContent_content_self stT sT.category sT.uuid (strBytes code)
    have hfetchT : fetchByDescription ungz
        (addToList (codeStore stT sT code) sT)
        (priorsT ++ [Snip.mk sT.description (tagsOf (joinTags sT.tags))
          sT.category [] sT.uuid]) sT.description
        = Except.ok (RepoState.mk
            (addToList (codeStore stT sT code) sT).index
            (addToList (codeStore stT sT code) sT).content
            (addToList (codeStore stT sT code) sT).temp
            (some (strBytes code))) := by
      unfold fetchByDescription
      simp only [hgetT]
      rw [if_neg hnotcat]
      unfold codeGet
      simp only [hcontT]
    refine ⟨priorsT ++ [Snip.mk sT.description (tagsOf (joinTags sT.tags))
        sT.category [] sT.uuid],
      Snip.mk sT.description (tagsOf (joinTags sT.tags)) sT.category []
        sT.uuid,
      RepoState.mk (addToList (codeStore stT sT code) sT).index
        (addToList (codeStore stT sT code) sT).content
        (addToList (codeStore stT sT code) sT).temp
        (some (strBytes code)),
      ?_, hinstT, hgetT, hfetchT, rfl⟩
    rw [addToList_eq (codeStore stT sT code) sT rowsT hidxT]
    exact setIndex_index_self _ _ _

/-- C3 witness at concrete snippets, states and an invertible codec. -/
theorem c3_round_trip_witness :
    (∃ st1 inst t st3,
      opStore (fun b => 0 :: b) w3st w3s = Except.ok st1
      ∧ (addToList st1 w3s).index w3s.category = some ([] ++ [rowOf w3s])
      ∧ loadSnips ([] ++ [rowOf w3s]) = Except.ok inst
      ∧ getByDescription inst w3s.description = some t
      ∧ t.uuid = w3s.uuid
      ∧ fetchByDescription (fun b => b.drop 1) (addToList st1 w3s) inst
          w3s.description = Except.ok st3
      ∧ st3.temp (tempName w3s.pfx) = some [7, 8])
    ∧ (∃ instT tT st3T,
      (addToList (codeStore w3stT w3sT (str "x+y")) w3sT).index
          w3sT.category = some ([] ++ [rowOf w3sT])
      ∧ loadSnips ([] ++ [rowOf w3sT]) = Except.ok instT
      ∧ getByDescription instT w3sT.description = some tT
      ∧ fetchByDescription (fun b => b.drop 1)
          (addToList (codeStore w3stT w3sT (str "x+y")) w3sT) instT
          w3sT.description = Except.ok st3T
      ∧ st3T.clipboard = some (strBytes (str "x+y"))) :=
  c3_create_fetch_round_trip (fun b => 0 :: b) (fun b => b.drop 1)
    (fun _ => rfl) w3st [] [] w3s [7, 8] (by decide) (by decide) (by decide)
    rfl rfl rfl (fun r hr => nomatch hr)
    w3stT [] [] w3sT (str "x+y") (by decide) (by decide) rfl rfl
    (fun r hr => nomatch hr)

end Houclip
